import Mathlib

/-!
# Verification of the Fango multi-round recommendation engine

Shallow embedding of the round-robin recommendation core of the Fango
server (`src/server/index.js`) together with the round controller of the
client (`src/client/src/pages/ProjectPage.tsx`), and proofs of the spec's
claims about it.

The SQLite tables `projects`, `houses`, `recommendations` are modelled as
lists of records.  Nondeterministic inputs of the code (the `Math.random`
based in-place shuffles, `uuidv4`, and the two untrusted ranking oracles)
are passed in as explicit parameters: a shuffle function (assumed in the
theorems to produce a permutation), a fresh-id generator, and `Option`
valued oracle responses where `none` models any failure path of the
`try`/`catch` blocks (network error, non-ok status, thrown exception).
-/

namespace Fango

/-- Row of the `projects` table (`CREATE TABLE projects`, index.js:73). -/
structure Project where
  id : String
  name : String
  userRequirements : Option String
  userProfile : Option String
  currentRound : Nat
deriving Repr, DecidableEq

/-- Row of the `houses` table (`CREATE TABLE houses`, index.js:82). -/
structure House where
  id : String
  projectId : String
  filename : String
  content : String
deriving Repr, DecidableEq

/-- Row of the `recommendations` table (`CREATE TABLE recommendations`,
index.js:91).  `rating`/`notes` are `NULL` until the client submits. -/
structure Recommendation where
  id : String
  projectId : String
  houseId : String
  round : Nat
  rating : Option String
  notes : Option String
deriving Repr, DecidableEq

/-- The whole SQLite database. -/
structure DB where
  projects : List Project
  houses : List House
  recommendations : List Recommendation
deriving Repr, DecidableEq

/-- `SELECT house_id FROM recommendations WHERE project_id = ?`
(index.js:500, 598): ids of every house already placed in some round. -/
def recommendedHouseIds (db : DB) (projectId : String) : List String :=
  (db.recommendations.filter (fun r => r.projectId == projectId)).map (·.houseId)

/-- `SELECT * FROM houses WHERE project_id = ?` filtered by
`!recommendedHouseIds.includes(h.id)` (index.js:504-506, 602-604):
the unplaced pool. -/
def availableHouses (db : DB) (projectId : String) : List House :=
  (db.houses.filter (fun h => h.projectId == projectId)).filter
    (fun h => !((recommendedHouseIds db projectId).contains h.id))

/-- `SELECT house_id, rating FROM recommendations WHERE project_id = ?
AND rating IS NOT NULL` (index.js:611-614). -/
def ratedRecommendations (db : DB) (projectId : String) : List Recommendation :=
  db.recommendations.filter (fun r => r.projectId == projectId && r.rating.isSome)

/-- `POST /api/projects/:projectId/random-sample` (index.js:496-519).
`shuffle` models the in-place `sort(() => 0.5 - Math.random())`;
`gen i` models the `uuidv4()` of the i-th inserted row.  Selects
`slice(0, Math.min(10, available.length))` of the shuffled unplaced pool
and inserts one round-0 recommendation row per selected house. -/
def randomSample (shuffle : List House → List House) (gen : Nat → String)
    (projectId : String) (db : DB) : DB × List House :=
  let available := availableHouses db projectId
  let shuffled := shuffle available
  let selected := shuffled.take (min 10 available.length)
  let newRecs := selected.enum.map fun p =>
    { id := gen p.1, projectId := projectId, houseId := p.2.id, round := 0,
      rating := none, notes := none : Recommendation }
  ({ db with recommendations := db.recommendations ++ newRecs }, selected)

/-- One element of the `ratings` array of the rate request body
(index.js:524: `ratings: [{houseId, rating, notes}]`). -/
structure RatingInput where
  houseId : String
  rating : String
  notes : String
deriving Repr, DecidableEq

/-- One `UPDATE recommendations SET rating = ?, notes = ? WHERE
project_id = ? AND house_id = ? AND round = ?` (index.js:528-529). -/
def applyRating (projectId : String) (round : Nat) (r : RatingInput)
    (recs : List Recommendation) : List Recommendation :=
  recs.map fun e =>
    if e.projectId == projectId && e.houseId == r.houseId && e.round == round then
      { e with rating := some r.rating, notes := some r.notes }
    else e

/-- `POST /api/projects/:projectId/rate` (index.js:522-536): runs the
rating UPDATEs in order, then `UPDATE projects SET current_round = ?`
with `round + 1` where `round` comes from the request body.  The handler
performs no validation and always responds `{success: true}`. -/
def rate (projectId : String) (round : Nat) (ratings : List RatingInput)
    (db : DB) : DB :=
  let recs := ratings.foldl (fun acc r => applyRating projectId round r acc)
    db.recommendations
  let projects := db.projects.map fun p =>
    if p.id == projectId then { p with currentRound := round + 1 } else p
  { db with projects := projects, recommendations := recs }

/-- Acceptance loop over the vector oracle's returned page ids
(index.js:646-653): each id is looked up in `houses` with the project
filter, accepted if not already placed before the call, with a break as
soon as 10 are accepted.  Note: a house already accepted earlier in the
same response is NOT filtered out. -/
def vectorAccept (db : DB) (projectId : String) (excluded : List String) :
    List String → List House → List House
  | [], acc => acc
  | recId :: rest, acc =>
    match db.houses.find? (fun h => h.id == recId && h.projectId == projectId) with
    | some house =>
      if !(excluded.contains house.id) then
        let acc' := acc ++ [house]
        if 10 ≤ acc'.length then acc'
        else vectorAccept db projectId excluded rest acc'
      else vectorAccept db projectId excluded rest acc
    | none => vectorAccept db projectId excluded rest acc

/-- Stage 1, the similarity oracle (index.js:620-666): attempted only
when at least one recommendation has a rating; `vectorResponse = none`
models every failure path (`fetch` throw, `!response.ok`), which the
`catch` converts into an empty contribution. -/
def vectorStage (db : DB) (projectId : String)
    (vectorResponse : Option (List String)) (excluded : List String) : List House :=
  if 0 < (ratedRecommendations db projectId).length then
    match vectorResponse with
    | some recIds => vectorAccept db projectId excluded recIds []
    | none => []
  else []

/-- Stage 2, the GPT fallback (index.js:669-712): runs only when fewer
than 10 houses are selected and an OpenAI client is configured; the ids
parsed from the reply filter the still-unselected unplaced houses and at
most `10 - selected.length` of them are appended.  `gptResponse = none`
models a thrown error, swallowed by the `catch`. -/
def gptStage (openaiConfigured : Bool) (gptResponse : Option (List String))
    (available : List House) (selected : List House) : List House :=
  if selected.length < 10 && openaiConfigured then
    let selectedIds := selected.map (·.id)
    let remaining := available.filter (fun h => !(selectedIds.contains h.id))
    if 0 < remaining.length then
      match gptResponse with
      | some gptIds =>
        let gptHouses := remaining.filter (fun h => gptIds.contains h.id)
        selected ++ gptHouses.take (10 - selected.length)
      | none => selected
    else selected
  else selected

/-- Stage 3, the random fill (index.js:715-722): if still short of 10,
shuffles the still-unselected unplaced houses and appends
`Math.min(10 - selected.length, shuffled.length)` of them. -/
def randomStage (shuffle : List House → List House) (available : List House)
    (selected : List House) : List House :=
  if selected.length < 10 then
    let selectedIds := selected.map (·.id)
    let remaining := available.filter (fun h => !(selectedIds.contains h.id))
    let shuffled := shuffle remaining
    let fillCount := min (10 - selected.length) shuffled.length
    selected ++ shuffled.take fillCount
  else selected

/-- The nondeterministic environment of one `generateRecommendations`
call: the external oracles and the random sources. -/
structure OracleEnv where
  openaiConfigured : Bool
  vectorResponse : Option (List String)
  gptResponse : Option (List String)
  shuffle : List House → List House
  gen : Nat → String

/-- `generateRecommendations(projectId, round)` (index.js:594-731): the
three-stage fallback chain, then one round-`round` recommendation row
inserted per selected house.  Returns `[]` with no insertion when the
unplaced pool is empty (index.js:606-608). -/
def generateRecommendations (env : OracleEnv) (projectId : String) (round : Nat)
    (db : DB) : DB × List House :=
  let excluded := recommendedHouseIds db projectId
  let available := availableHouses db projectId
  if available.length == 0 then (db, [])
  else
    let s1 := vectorStage db projectId env.vectorResponse excluded
    let s2 := gptStage env.openaiConfigured env.gptResponse available s1
    let s3 := randomStage env.shuffle available s2
    let newRecs := s3.enum.map fun p =>
      { id := env.gen p.1, projectId := projectId, houseId := p.2.id,
        round := round, rating := none, notes := none : Recommendation }
    ({ db with recommendations := db.recommendations ++ newRecs }, s3)

/-- `POST /api/projects/:projectId/next-round` (index.js:734-765): 404
when the project is missing; otherwise the best-effort profile analysis
(`profileResult = none` models its swallowed failure, index.js:747-753)
followed by `generateRecommendations` at the project's `current_round`
read at entry. -/
def nextRound (env : OracleEnv) (profileResult : Option String)
    (projectId : String) (db : DB) : DB × List House :=
  match db.projects.find? (fun p => p.id == projectId) with
  | none => (db, [])
  | some project =>
    let db1 := match profileResult with
      | some profile =>
        { db with projects := db.projects.map fun p =>
            if p.id == projectId then { p with userProfile := some profile } else p }
      | none => db
    generateRecommendations env projectId project.currentRound db1

/-- The `ratingsData` array built by the client before the rate request
(ProjectPage.tsx:149-153): one entry per displayed house of the round. -/
def ratingsDataOf (roundHouses : List House) (ratingOf : String → Option String)
    (notesOf : String → String) : List RatingInput :=
  roundHouses.map fun h =>
    { houseId := h.id, rating := (ratingOf h.id).getD "",
      notes := notesOf h.id : RatingInput }

/-- `submitRatingsAndNextRound` (ProjectPage.tsx:138-185), the client
round controller: if any displayed house of the round has no rating in
the local state, the submission is rejected (`alert`, result `none`)
with no request made; otherwise the rate request is sent with
`round = currentTab`, and only when `currentTab < 3` is the next-round
selection requested. -/
def submitRatingsAndNextRound (env : OracleEnv) (profileResult : Option String)
    (projectId : String) (currentTab : Nat) (roundHouses : List House)
    (ratingOf : String → Option String) (notesOf : String → String)
    (db : DB) : DB × Option (List House) :=
  if roundHouses.all (fun h => (ratingOf h.id).isSome) then
    if currentTab < 3 then
      ((nextRound env profileResult projectId
          (rate projectId currentTab (ratingsDataOf roundHouses ratingOf notesOf) db)).1,
       some (nextRound env profileResult projectId
          (rate projectId currentTab (ratingsDataOf roundHouses ratingOf notesOf) db)).2)
    else (rate projectId currentTab (ratingsDataOf roundHouses ratingOf notesOf) db, some [])
  else (db, none)

/-- Database states reachable by driving the server through the client
pages: a fresh database (tables created empty, then projects/houses
ingested by uploads and project creation, which never touch
`recommendations`), further uploads, `startRandomSample`
(ProjectPage.tsx:109-126) and `submitRatingsAndNextRound`. -/
inductive ClientReach : DB → Prop
  | init (projects : List Project) (houses : List House) :
      ClientReach { projects := projects, houses := houses, recommendations := [] }
  | upload (hs : List House) {db : DB} : ClientReach db →
      ClientReach { db with houses := db.houses ++ hs }
  | sample (shuffle : List House → List House) (gen : Nat → String)
      (projectId : String) {db : DB} : ClientReach db →
      ClientReach (randomSample shuffle gen projectId db).1
  | submit (env : OracleEnv) (profileResult : Option String) (projectId : String)
      (currentTab : Nat) (roundHouses : List House)
      (ratingOf : String → Option String) (notesOf : String → String) {db : DB} :
      ClientReach db →
      ClientReach (submitRatingsAndNextRound env profileResult projectId currentTab
        roundHouses ratingOf notesOf db).1

/-! ## Concrete example data for the executable checks -/

/-- A trivial shuffle (one possible outcome of the `Math.random` sort). -/
def idShuffle : List House → List House := fun l => l

def hA : House := { id := "a", projectId := "p", filename := "a.pdf", content := "" }

def hB : House := { id := "b", projectId := "p", filename := "b.pdf", content := "" }

def hC : House := { id := "c", projectId := "p", filename := "c.pdf", content := "" }

def exProj : Project :=
  { id := "p", name := "P", userRequirements := none, userProfile := none,
    currentRound := 1 }

/-- A round-0 entry for house "c", already rated. -/
def exRated : Recommendation :=
  { id := "r0", projectId := "p", houseId := "c", round := 0,
    rating := some "good", notes := some "" }

/-- Project "p" with houses a, b, c where c is placed and rated. -/
def exDb : DB :=
  { projects := [exProj], houses := [hA, hB, hC], recommendations := [exRated] }

/-- Environment whose similarity oracle replies with a duplicated id. -/
def dupEnv : OracleEnv :=
  { openaiConfigured := false, vectorResponse := some ["a", "a"],
    gptResponse := none, shuffle := idShuffle, gen := fun i => toString i }

/-- Environment whose similarity oracle replies with a single id. -/
def okEnv : OracleEnv :=
  { openaiConfigured := false, vectorResponse := some ["a"],
    gptResponse := none, shuffle := idShuffle, gen := fun i => toString i }

/-- Environment where both oracles fail. -/
def downEnv : OracleEnv :=
  { openaiConfigured := true, vectorResponse := none,
    gptResponse := none, shuffle := idShuffle, gen := fun i => toString i }

/-- Project "p" already at round 3. -/
def p3Proj : Project :=
  { id := "p", name := "P", userRequirements := none, userProfile := none,
    currentRound := 3 }

/-- Project "p" at round 0. -/
def p0Proj : Project :=
  { id := "p", name := "P", userRequirements := none, userProfile := none,
    currentRound := 0 }

/-- Project "p" already at round 3, no entries. -/
def c3Db : DB :=
  { projects := [p3Proj], houses := [], recommendations := [] }

/-- Project "p" at round 0 with no recommendation entries at all. -/
def c8Db : DB :=
  { projects := [p0Proj], houses := [], recommendations := [] }

/-- A round-0 entry for house a, not yet rated. -/
def c4Rec : Recommendation :=
  { id := "r1", projectId := "p", houseId := "a", round := 0,
    rating := none, notes := none }

/-- Project "p" with house a placed in round 0, not yet rated. -/
def c4Db : DB :=
  { projects := [p0Proj], houses := [hA], recommendations := [c4Rec] }

/-- Project "p" with zero houses. -/
def emptyDb : DB :=
  { projects := [p0Proj], houses := [], recommendations := [] }

/-- Ten copies of house a, a selection that already fills the quota. -/
def tenA : List House := List.replicate 10 hA

/-! ## Basic lemmas about the unplaced pool -/

theorem mem_availableHouses {db : DB} {pid : String} {h : House} :
    h ∈ availableHouses db pid ↔
      h ∈ db.houses ∧ h.projectId = pid ∧ h.id ∉ recommendedHouseIds db pid := by
  simp only [availableHouses, List.mem_filter, Bool.not_eq_true', beq_iff_eq]
  constructor
  · rintro ⟨⟨hm, hp⟩, hc⟩
    exact ⟨hm, hp, by simpa using hc⟩
  · rintro ⟨hm, hp, hc⟩
    exact ⟨⟨hm, hp⟩, by simpa using hc⟩

theorem availableHouses_nodup {db : DB} {pid : String}
    (hnd : (db.houses.map House.id).Nodup) :
    ((availableHouses db pid).map House.id).Nodup := by
  have hsub : List.Sublist (availableHouses db pid) db.houses :=
    (List.filter_sublist _).trans (List.filter_sublist _)
  exact (hsub.map House.id).nodup hnd

/-- Counting bound behind the lower size bound: with duplicate-free house
ids, dropping the houses whose id lies in `ids` removes at most
`ids.length` houses. -/
theorem length_le_filterNot_add {avail : List House} {ids : List String}
    (hnd : (avail.map House.id).Nodup) :
    avail.length ≤ (avail.filter (fun h => !(ids.contains h.id))).length + ids.length := by
  have hsplit := (@List.length_eq_length_filter_add House avail
    (fun h => ids.contains h.id)).symm
  have hle : (avail.filter (fun h => ids.contains h.id)).length ≤ ids.length := by
    have hsub : List.Sublist
        ((avail.filter (fun h => ids.contains h.id)).map House.id)
        (avail.map House.id) := (List.filter_sublist _).map _
    have hnd' := hsub.nodup hnd
    have hss : (avail.filter (fun h => ids.contains h.id)).map House.id ⊆ ids := by
      intro a ha
      simp only [List.mem_map, List.mem_filter] at ha
      obtain ⟨h, ⟨_, hc⟩, rfl⟩ := ha
      exact List.elem_iff.mp hc
    calc (avail.filter (fun h => ids.contains h.id)).length
        = ((avail.filter (fun h => ids.contains h.id)).map House.id).length :=
          (List.length_map _ _).symm
      _ ≤ ids.length := (List.subperm_of_subset hnd' hss).length_le
  omega

/-- Appending houses drawn from the pool minus the ids of `s` keeps the
selected ids duplicate-free. -/
theorem append_stage_nodup {s t avail : List House}
    (hs : (s.map House.id).Nodup)
    (hmem : ∀ h ∈ t, h ∈ avail.filter (fun h => !((s.map House.id).contains h.id)))
    (htnd : (t.map House.id).Nodup) :
    ((s ++ t).map House.id).Nodup := by
  rw [List.map_append, List.nodup_append]
  refine ⟨hs, htnd, ?_⟩
  intro a ha hb
  simp only [List.mem_map] at hb
  obtain ⟨h, hht, rfl⟩ := hb
  have := hmem h hht
  simp only [List.mem_filter, Bool.not_eq_true'] at this
  have hnotmem : h.id ∉ s.map House.id := by simpa using this.2
  exact hnotmem ha

/-! ## Stage 1: the vector acceptance loop -/

theorem vectorAccept_cons_none {db : DB} {pid : String} {ex : List String}
    {r : String} {rest : List String} {acc : List House}
    (hfind : db.houses.find? (fun h => h.id == r && h.projectId == pid) = none) :
    vectorAccept db pid ex (r :: rest) acc = vectorAccept db pid ex rest acc := by
  rw [vectorAccept, hfind]

theorem vectorAccept_cons_skip {db : DB} {pid : String} {ex : List String}
    {r : String} {rest : List String} {acc : List House} {house : House}
    (hfind : db.houses.find? (fun h => h.id == r && h.projectId == pid) = some house)
    (hex : ex.contains house.id = true) :
    vectorAccept db pid ex (r :: rest) acc = vectorAccept db pid ex rest acc := by
  rw [vectorAccept, hfind]
  have hm : house.id ∈ ex := List.elem_iff.mp hex
  simp [hm]

theorem vectorAccept_cons_full {db : DB} {pid : String} {ex : List String}
    {r : String} {rest : List String} {acc : List House} {house : House}
    (hfind : db.houses.find? (fun h => h.id == r && h.projectId == pid) = some house)
    (hex : ex.contains house.id = false) (hlen : 10 ≤ (acc ++ [house]).length) :
    vectorAccept db pid ex (r :: rest) acc = acc ++ [house] := by
  rw [vectorAccept, hfind]
  have hm : house.id ∉ ex := by simpa using hex
  have hlen' : 9 ≤ acc.length := by simp only [List.length_append, List.length_singleton] at hlen; omega
  simp [hm, hlen']

theorem vectorAccept_cons_go {db : DB} {pid : String} {ex : List String}
    {r : String} {rest : List String} {acc : List House} {house : House}
    (hfind : db.houses.find? (fun h => h.id == r && h.projectId == pid) = some house)
    (hex : ex.contains house.id = false) (hlen : ¬ 10 ≤ (acc ++ [house]).length) :
    vectorAccept db pid ex (r :: rest) acc = vectorAccept db pid ex rest (acc ++ [house]) := by
  rw [vectorAccept, hfind]
  have hm : house.id ∉ ex := by simpa using hex
  have hlen' : ¬ 9 ≤ acc.length := by
    simp only [List.length_append, List.length_singleton] at hlen; omega
  simp [hm, hlen']

theorem vectorAccept_length_le (db : DB) (pid : String) (ex : List String) :
    ∀ (ids : List String) (acc : List House), acc.length < 10 →
      (vectorAccept db pid ex ids acc).length ≤ 10 := by
  intro ids
  induction ids with
  | nil => intro acc hacc; rw [vectorAccept]; omega
  | cons r rest ih =>
    intro acc hacc
    cases hfind : db.houses.find? (fun h => h.id == r && h.projectId == pid) with
    | none => rw [vectorAccept_cons_none hfind]; exact ih acc hacc
    | some house =>
      by_cases hex : (ex.contains house.id) = true
      · rw [vectorAccept_cons_skip hfind hex]; exact ih acc hacc
      · rw [Bool.not_eq_true] at hex
        by_cases hlen : 10 ≤ (acc ++ [house]).length
        · rw [vectorAccept_cons_full hfind hex hlen]
          simp only [List.length_append, List.length_singleton] at hlen ⊢
          omega
        · rw [vectorAccept_cons_go hfind hex hlen]
          refine ih _ ?_
          simp only [List.length_append, List.length_singleton] at hlen ⊢
          omega

theorem vectorAccept_mem (db : DB) (pid : String) (ex : List String) :
    ∀ (ids : List String) (acc : List House), ∀ h ∈ vectorAccept db pid ex ids acc,
      h ∈ acc ∨ (h ∈ db.houses ∧ h.projectId = pid ∧ h.id ∉ ex) := by
  intro ids
  induction ids with
  | nil => intro acc h hh; rw [vectorAccept] at hh; exact Or.inl hh
  | cons r rest ih =>
    intro acc h hh
    cases hfind : db.houses.find? (fun h => h.id == r && h.projectId == pid) with
    | none => rw [vectorAccept_cons_none hfind] at hh; exact ih acc h hh
    | some house =>
      have hprops : house ∈ db.houses ∧ house.projectId = pid := by
        have hmem := List.mem_of_find?_eq_some hfind
        have hpred := List.find?_some hfind
        simp only [Bool.and_eq_true, beq_iff_eq] at hpred
        exact ⟨hmem, hpred.2⟩
      by_cases hex : (ex.contains house.id) = true
      · rw [vectorAccept_cons_skip hfind hex] at hh; exact ih acc h hh
      · rw [Bool.not_eq_true] at hex
        have hexm : house.id ∉ ex := by simpa using hex
        by_cases hlen : 10 ≤ (acc ++ [house]).length
        · rw [vectorAccept_cons_full hfind hex hlen] at hh
          rcases List.mem_append.mp hh with hc | hc
          · exact Or.inl hc
          · simp only [List.mem_singleton] at hc
            subst hc; exact Or.inr ⟨hprops.1, hprops.2, hexm⟩
        · rw [vectorAccept_cons_go hfind hex hlen] at hh
          rcases ih _ h hh with hc | hc
          · rcases List.mem_append.mp hc with hd | hd
            · exact Or.inl hd
            · simp only [List.mem_singleton] at hd
              subst hd; exact Or.inr ⟨hprops.1, hprops.2, hexm⟩
          · exact Or.inr hc

theorem vectorAccept_nodup (db : DB) (pid : String) (ex : List String) :
    ∀ (ids : List String) (acc : List House), ids.Nodup → (acc.map House.id).Nodup →
      (∀ h ∈ acc, h.id ∉ ids) →
      ((vectorAccept db pid ex ids acc).map House.id).Nodup := by
  intro ids
  induction ids with
  | nil => intro acc _ hacc _; rw [vectorAccept]; exact hacc
  | cons r rest ih =>
    intro acc hids hacc hdisj
    have hrrest : r ∉ rest := (List.nodup_cons.mp hids).1
    have hrest : rest.Nodup := (List.nodup_cons.mp hids).2
    cases hfind : db.houses.find? (fun h => h.id == r && h.projectId == pid) with
    | none =>
      rw [vectorAccept_cons_none hfind]
      exact ih acc hrest hacc (fun h hm hc => hdisj h hm (List.mem_cons_of_mem _ hc))
    | some house =>
      have hid : house.id = r := by
        have hpred := List.find?_some hfind
        simp only [Bool.and_eq_true, beq_iff_eq] at hpred
        exact hpred.1
      by_cases hex : (ex.contains house.id) = true
      · rw [vectorAccept_cons_skip hfind hex]
        exact ih acc hrest hacc (fun h hm hc => hdisj h hm (List.mem_cons_of_mem _ hc))
      · rw [Bool.not_eq_true] at hex
        have hacc' : ((acc ++ [house]).map House.id).Nodup := by
          rw [List.map_append, List.nodup_append]
          refine ⟨hacc, by simp, ?_⟩
          intro a ha hb
          simp only [List.map_cons, List.map_nil, List.mem_singleton] at hb
          subst hb
          simp only [List.mem_map] at ha
          obtain ⟨h1, hm, hEq⟩ := ha
          refine hdisj h1 hm ?_
          rw [hEq, hid]
          exact List.mem_cons_self _ _
        have hdisj' : ∀ h ∈ acc ++ [house], h.id ∉ rest := by
          intro h hm
          rcases List.mem_append.mp hm with hc | hc
          · exact fun hcc => hdisj h hc (List.mem_cons_of_mem _ hcc)
          · simp only [List.mem_singleton] at hc
            subst hc; rw [hid]; exact hrrest
        by_cases hlen : 10 ≤ (acc ++ [house]).length
        · rw [vectorAccept_cons_full hfind hex hlen]; exact hacc'
        · rw [vectorAccept_cons_go hfind hex hlen]; exact ih _ hrest hacc' hdisj'

/-! ## Stage wrappers -/

theorem vectorStage_length_le (db : DB) (pid : String) (vr : Option (List String))
    (ex : List String) : (vectorStage db pid vr ex).length ≤ 10 := by
  rw [vectorStage.eq_def]
  by_cases hr : 0 < (ratedRecommendations db pid).length
  · rw [if_pos hr]
    cases vr with
    | none => simp
    | some ids => exact vectorAccept_length_le db pid ex ids [] (by simp)
  · rw [if_neg hr]; simp

theorem vectorStage_mem (db : DB) (pid : String) (vr : Option (List String))
    (ex : List String) : ∀ h ∈ vectorStage db pid vr ex,
      h ∈ db.houses ∧ h.projectId = pid ∧ h.id ∉ ex := by
  intro h hh
  rw [vectorStage.eq_def] at hh
  by_cases hr : 0 < (ratedRecommendations db pid).length
  · rw [if_pos hr] at hh
    cases vr with
    | none => simp at hh
    | some ids =>
      rcases vectorAccept_mem db pid ex ids [] h hh with hc | hc
      · simp at hc
      · exact hc
  · rw [if_neg hr] at hh; simp at hh

theorem vectorStage_nodup (db : DB) (pid : String) (vr : Option (List String))
    (ex : List String) (hvr : ∀ ids, vr = some ids → ids.Nodup) :
    ((vectorStage db pid vr ex).map House.id).Nodup := by
  rw [vectorStage.eq_def]
  by_cases hr : 0 < (ratedRecommendations db pid).length
  · rw [if_pos hr]
    cases vr with
    | none => simp
    | some ids =>
      exact vectorAccept_nodup db pid ex ids [] (hvr ids rfl) (by simp) (by simp)
  · rw [if_neg hr]; simp

theorem gptStage_spec (o : Bool) (g : Option (List String)) (avail s : List House) :
    ∃ t, gptStage o g avail s = s ++ t ∧
      List.Sublist t (avail.filter (fun h => !((s.map House.id).contains h.id))) ∧
      t.length ≤ 10 - s.length := by
  rw [gptStage]
  by_cases hg : (decide (s.length < 10) && o) = true
  · rw [if_pos hg]
    by_cases hrem :
        0 < (avail.filter (fun h => !((s.map House.id).contains h.id))).length
    · rw [if_pos hrem]
      cases g with
      | none => exact ⟨[], by simp, List.nil_sublist _, by simp⟩
      | some gptIds =>
        refine ⟨_, rfl, ?_, ?_⟩
        · exact (List.take_sublist _ _).trans (List.filter_sublist _)
        · exact le_trans (List.length_take_le _ _) (le_refl _)
    · rw [if_neg hrem]
      exact ⟨[], by simp, List.nil_sublist _, by simp⟩
  · rw [if_neg (by simpa using hg)]
    exact ⟨[], by simp, List.nil_sublist _, by simp⟩

theorem randomStage_spec (σ : List House → List House) (avail s : List House)
    (hperm : ∀ l, List.Perm (σ l) l) :
    ∃ t, randomStage σ avail s = s ++ t ∧
      (∀ h ∈ t, h ∈ avail.filter (fun h => !((s.map House.id).contains h.id))) ∧
      ((avail.map House.id).Nodup → (t.map House.id).Nodup) ∧
      t.length = if s.length < 10 then
          min (10 - s.length)
            (avail.filter (fun h => !((s.map House.id).contains h.id))).length
        else 0 := by
  rw [randomStage]
  by_cases hlt : s.length < 10
  · rw [if_pos hlt, if_pos hlt]
    set remaining := avail.filter (fun h => !((s.map House.id).contains h.id)) with hrem
    have hplen : (σ remaining).length = remaining.length := (hperm remaining).length_eq
    refine ⟨_, rfl, ?_, ?_, ?_⟩
    · intro h hh
      exact (hperm remaining).mem_iff.mp (List.mem_of_mem_take hh)
    · intro hnd
      have hremnd : (remaining.map House.id).Nodup := by
        have hsub : List.Sublist (remaining.map House.id) (avail.map House.id) :=
          (List.filter_sublist _).map _
        exact hsub.nodup hnd
      have hshufnd : ((σ remaining).map House.id).Nodup :=
        (((hperm remaining).map House.id).nodup_iff).mpr hremnd
      have : List.Sublist
          (((σ remaining).take (min (10 - s.length) (σ remaining).length)).map House.id)
          ((σ remaining).map House.id) := (List.take_sublist _ _).map _
      exact this.nodup hshufnd
    · rw [List.length_take, hplen]
      omega
  · rw [if_neg hlt, if_neg hlt]
    exact ⟨[], by simp, by simp, by simp, rfl⟩

/-! ## The assembled fallback chain -/

theorem generateRecommendations_def (env : OracleEnv) (pid : String) (rd : Nat)
    (db : DB) :
    (generateRecommendations env pid rd db).2 =
      if (availableHouses db pid).length == 0 then []
      else randomStage env.shuffle (availableHouses db pid)
        (gptStage env.openaiConfigured env.gptResponse (availableHouses db pid)
          (vectorStage db pid env.vectorResponse (recommendedHouseIds db pid))) := by
  rw [generateRecommendations]
  by_cases hz : ((availableHouses db pid).length == 0) = true
  · rw [if_pos hz, if_pos hz]
  · rw [if_neg hz, if_neg hz]

theorem generateRecommendations_recs (env : OracleEnv) (pid : String) (rd : Nat)
    (db : DB) :
    (generateRecommendations env pid rd db).1.recommendations =
      db.recommendations ++
        ((generateRecommendations env pid rd db).2.enum.map fun p =>
          { id := env.gen p.1, projectId := pid, houseId := p.2.id, round := rd,
            rating := none, notes := none : Recommendation }) ∧
    (generateRecommendations env pid rd db).1.projects = db.projects ∧
    (generateRecommendations env pid rd db).1.houses = db.houses := by
  rw [generateRecommendations]
  by_cases hz : ((availableHouses db pid).length == 0) = true
  · rw [if_pos hz]; simp
  · rw [if_neg hz]; simp

/-- Behaviour of stages 2 and 3 run after an arbitrary stage-1 selection
`s1` of at most 10 houses drawn from `avail`. -/
theorem chain23_spec (o : Bool) (g : Option (List String))
    (σ : List House → List House) (avail s1 : List House)
    (hperm : ∀ l, List.Perm (σ l) l) (havnd : (avail.map House.id).Nodup)
    (hs1le : s1.length ≤ 10) (hs1mem : ∀ h ∈ s1, h ∈ avail) :
    (randomStage σ avail (gptStage o g avail s1)).length ≤ 10 ∧
    min 10 avail.length ≤ (randomStage σ avail (gptStage o g avail s1)).length ∧
    (∀ h ∈ randomStage σ avail (gptStage o g avail s1), h ∈ avail) ∧
    ((s1.map House.id).Nodup →
      ((randomStage σ avail (gptStage o g avail s1)).map House.id).Nodup) := by
  obtain ⟨t2, ht2eq, ht2sub, ht2len⟩ := gptStage_spec o g avail s1
  rw [ht2eq]
  obtain ⟨t3, ht3eq, ht3mem, ht3nd, ht3len⟩ := randomStage_spec σ avail (s1 ++ t2) hperm
  rw [ht3eq]
  have hs2le : (s1 ++ t2).length ≤ 10 := by
    rw [List.length_append]; omega
  have hs2mem : ∀ h ∈ s1 ++ t2, h ∈ avail := by
    intro h hh
    rcases List.mem_append.mp hh with hc | hc
    · exact hs1mem h hc
    · exact List.mem_of_mem_filter (ht2sub.mem hc)
  have hcount2 : avail.length ≤
      (avail.filter (fun h => !(((s1 ++ t2).map House.id).contains h.id))).length +
        (s1 ++ t2).length := by
    have := @length_le_filterNot_add avail ((s1 ++ t2).map House.id) havnd
    rwa [List.length_map] at this
  have ht3len' : (s1 ++ t2).length + t3.length = (s1 ++ t2 ++ t3).length := by
    simp only [List.length_append]
  refine ⟨?_, ?_, ?_, ?_⟩
  · rcases Nat.lt_or_ge (s1 ++ t2).length 10 with hc | hc
    · rw [if_pos hc] at ht3len
      rw [← ht3len']
      omega
    · rw [if_neg (by omega)] at ht3len
      rw [← ht3len']
      omega
  · rcases Nat.lt_or_ge (s1 ++ t2).length 10 with hc | hc
    · rw [if_pos hc] at ht3len
      rw [← ht3len']
      omega
    · rw [if_neg (by omega)] at ht3len
      rw [← ht3len']
      omega
  · intro h hh
    rcases List.mem_append.mp hh with hc | hc
    · exact hs2mem h hc
    · exact List.mem_of_mem_filter (ht3mem h hc)
  · intro hs1nd
    have ht2nd : (t2.map House.id).Nodup := by
      have hsub : List.Sublist (t2.map House.id) (avail.map House.id) :=
        (ht2sub.trans (List.filter_sublist _)).map _
      exact hsub.nodup havnd
    have hs2nd : ((s1 ++ t2).map House.id).Nodup :=
      append_stage_nodup hs1nd (fun h hh => ht2sub.mem hh) ht2nd
    exact append_stage_nodup hs2nd ht3mem (ht3nd havnd)

/-- Bundled specification of one `generateRecommendations` call: the
size bounds, the containment of the result in the unplaced pool, and
duplicate-freedom whenever the similarity oracle's reply is itself
duplicate-free. -/
theorem generate_spec (env : OracleEnv) (pid : String) (rd : Nat) (db : DB)
    (hperm : ∀ l, List.Perm (env.shuffle l) l)
    (hnd : (db.houses.map House.id).Nodup) :
    (generateRecommendations env pid rd db).2.length ≤ 10 ∧
    min 10 (availableHouses db pid).length ≤ (generateRecommendations env pid rd db).2.length ∧
    (∀ h ∈ (generateRecommendations env pid rd db).2, h ∈ availableHouses db pid) ∧
    ((∀ ids, env.vectorResponse = some ids → ids.Nodup) →
      ((generateRecommendations env pid rd db).2.map House.id).Nodup) := by
  rw [generateRecommendations_def]
  by_cases hz : ((availableHouses db pid).length == 0) = true
  · rw [if_pos hz]
    have : (availableHouses db pid).length = 0 := by simpa using hz
    simp [this]
  · rw [if_neg hz]
    have havnd : ((availableHouses db pid).map House.id).Nodup := availableHouses_nodup hnd
    have hs1le : (vectorStage db pid env.vectorResponse (recommendedHouseIds db pid)).length ≤ 10 :=
      vectorStage_length_le db pid _ _
    have hs1mem : ∀ h ∈ vectorStage db pid env.vectorResponse (recommendedHouseIds db pid),
        h ∈ availableHouses db pid := by
      intro h hh
      exact mem_availableHouses.mpr
        (vectorStage_mem db pid env.vectorResponse (recommendedHouseIds db pid) h hh)
    obtain ⟨h1, h2, h3, h4⟩ := chain23_spec env.openaiConfigured env.gptResponse env.shuffle
      (availableHouses db pid) (vectorStage db pid env.vectorResponse (recommendedHouseIds db pid))
      hperm havnd hs1le hs1mem
    exact ⟨h1, h2, h3, fun hvr => h4 (vectorStage_nodup db pid _ _ hvr)⟩

/-! ## The rating handler -/

theorem applyRating_round {pid : String} {rd : Nat} {r : RatingInput}
    {recs : List Recommendation} :
    ∀ e ∈ applyRating pid rd r recs, ∃ e0 ∈ recs, e.round = e0.round := by
  intro e he
  rw [applyRating] at he
  obtain ⟨e0, he0, heq⟩ := List.mem_map.mp he
  refine ⟨e0, he0, ?_⟩
  rw [← heq]
  split <;> rfl

theorem foldl_applyRating_round (pid : String) (rd : Nat) :
    ∀ (ratings : List RatingInput) (recs : List Recommendation),
      ∀ e ∈ ratings.foldl (fun acc r => applyRating pid rd r acc) recs,
        ∃ e0 ∈ recs, e.round = e0.round := by
  intro ratings
  induction ratings with
  | nil => intro recs e he; exact ⟨e, he, rfl⟩
  | cons r rest ih =>
    intro recs e he
    simp only [List.foldl_cons] at he
    obtain ⟨e1, he1, hr1⟩ := ih _ e he
    obtain ⟨e0, he0, hr0⟩ := applyRating_round e1 he1
    exact ⟨e0, he0, hr1.trans hr0⟩

theorem rate_round_preserved {pid : String} {rd : Nat} {ratings : List RatingInput}
    {db : DB} :
    ∀ e ∈ (rate pid rd ratings db).recommendations,
      ∃ e0 ∈ db.recommendations, e.round = e0.round := by
  intro e he
  exact foldl_applyRating_round pid rd ratings db.recommendations e he

theorem rate_currentRound {pid : String} {rd : Nat} {ratings : List RatingInput}
    {db : DB} :
    ∀ p ∈ (rate pid rd ratings db).projects, p.id = pid → p.currentRound = rd + 1 := by
  intro p hp hid
  rw [rate] at hp
  obtain ⟨p0, hp0, heq⟩ := List.mem_map.mp hp
  by_cases hc : (p0.id == pid) = true
  · rw [if_pos hc] at heq
    rw [← heq]
  · rw [if_neg hc] at heq
    exfalso
    rw [← heq] at hid
    exact hc (beq_iff_eq.mpr hid)

theorem rate_other_projects {pid : String} {rd : Nat} {ratings : List RatingInput}
    {db : DB} :
    ∀ p ∈ (rate pid rd ratings db).projects, p.id ≠ pid → p ∈ db.projects := by
  intro p hp hid
  rw [rate] at hp
  obtain ⟨p0, hp0, heq⟩ := List.mem_map.mp hp
  by_cases hc : (p0.id == pid) = true
  · rw [if_pos hc] at heq
    exfalso
    apply hid
    rw [← heq]
    exact beq_iff_eq.mp hc
  · rw [if_neg hc] at heq
    rw [← heq]
    exact hp0

theorem rate_houses (pid : String) (rd : Nat) (ratings : List RatingInput) (db : DB) :
    (rate pid rd ratings db).houses = db.houses := rfl

/-! ## The round-0 random sample -/

theorem randomSample_state (σ : List House → List House) (g : Nat → String)
    (pid : String) (db : DB) :
    (randomSample σ g pid db).1.projects = db.projects ∧
    (randomSample σ g pid db).1.houses = db.houses ∧
    (randomSample σ g pid db).1.recommendations = db.recommendations ++
      ((randomSample σ g pid db).2.enum.map fun p =>
        { id := g p.1, projectId := pid, houseId := p.2.id, round := 0,
          rating := none, notes := none : Recommendation }) :=
  ⟨rfl, rfl, rfl⟩

theorem randomSample_sel (σ : List House → List House) (g : Nat → String)
    (pid : String) (db : DB) (hperm : ∀ l, List.Perm (σ l) l) :
    (randomSample σ g pid db).2.length = min 10 (availableHouses db pid).length ∧
    (∀ h ∈ (randomSample σ g pid db).2, h ∈ availableHouses db pid) ∧
    ((db.houses.map House.id).Nodup →
      ((randomSample σ g pid db).2.map House.id).Nodup) := by
  have hsel : (randomSample σ g pid db).2 =
      (σ (availableHouses db pid)).take (min 10 (availableHouses db pid).length) := rfl
  have hplen : (σ (availableHouses db pid)).length = (availableHouses db pid).length :=
    (hperm _).length_eq
  refine ⟨?_, ?_, ?_⟩
  · rw [hsel, List.length_take, hplen]
    omega
  · intro h hh
    rw [hsel] at hh
    exact (hperm _).mem_iff.mp (List.mem_of_mem_take hh)
  · intro hnd
    have havnd : ((availableHouses db pid).map House.id).Nodup := availableHouses_nodup hnd
    have hshufnd : ((σ (availableHouses db pid)).map House.id).Nodup :=
      (((hperm _).map House.id).nodup_iff).mpr havnd
    rw [hsel]
    exact ((List.take_sublist _ _).map _).nodup hshufnd

/-! ## The next-round handler -/

theorem nextRound_recs (env : OracleEnv) (pr : Option String) (pid : String) (db : DB) :
    ∀ e ∈ (nextRound env pr pid db).1.recommendations,
      e ∈ db.recommendations ∨
        ∃ p ∈ db.projects, p.id = pid ∧ e.round = p.currentRound := by
  intro e he
  rw [nextRound.eq_def] at he
  cases hfind : db.projects.find? (fun p => p.id == pid) with
  | none => rw [hfind] at he; exact Or.inl he
  | some project =>
    rw [hfind] at he
    have hpmem : project ∈ db.projects := List.mem_of_find?_eq_some hfind
    have hpid : project.id = pid := by
      have := List.find?_some hfind
      exact beq_iff_eq.mp this
    simp only at he
    have hrecs := fun db1 => (generateRecommendations_recs env pid project.currentRound db1).1
    cases pr with
    | some profile =>
      rw [hrecs] at he
      rcases List.mem_append.mp he with hc | hc
      · exact Or.inl hc
      · obtain ⟨p, hp, heq⟩ := List.mem_map.mp hc
        exact Or.inr ⟨project, hpmem, hpid, by rw [← heq]⟩
    | none =>
      rw [hrecs] at he
      rcases List.mem_append.mp he with hc | hc
      · exact Or.inl hc
      · obtain ⟨p, hp, heq⟩ := List.mem_map.mp hc
        exact Or.inr ⟨project, hpmem, hpid, by rw [← heq]⟩

/-! ## Effect of a batch insertion on the placed-id set -/

theorem filter_map_new_entries (recs : List Recommendation) (pid : String)
    (res : List House) (g : Nat → String) (rd : Nat) :
    (((recs ++ res.enum.map fun p =>
        ({ id := g p.1, projectId := pid, houseId := p.2.id, round := rd,
           rating := none, notes := none } : Recommendation)).filter
        (fun r => r.projectId == pid)).map (·.houseId)) =
      ((recs.filter (fun r => r.projectId == pid)).map (·.houseId)) ++
        res.map House.id := by
  have h1 : ((res.enum.map fun p =>
      ({ id := g p.1, projectId := pid, houseId := p.2.id, round := rd,
         rating := none, notes := none } : Recommendation)).filter
      (fun r => r.projectId == pid)) = res.enum.map fun p =>
      ({ id := g p.1, projectId := pid, houseId := p.2.id, round := rd,
         rating := none, notes := none } : Recommendation) := by
    apply List.filter_eq_self.mpr
    intro e he
    obtain ⟨p, hp, heq⟩ := List.mem_map.mp he
    rw [← heq]
    exact beq_self_eq_true pid
  rw [List.filter_append, h1, List.map_append]
  congr 1
  rw [List.map_map]
  show res.enum.map (fun p => p.2.id) = res.map House.id
  calc res.enum.map (fun p => p.2.id)
      = (res.enum.map Prod.snd).map House.id := by rw [List.map_map]; rfl
    _ = res.map House.id := by rw [List.enum_map_snd]

theorem generate_recommendedHouseIds (env : OracleEnv) (pid : String) (rd : Nat)
    (db : DB) :
    recommendedHouseIds (generateRecommendations env pid rd db).1 pid =
      recommendedHouseIds db pid ++
        (generateRecommendations env pid rd db).2.map House.id := by
  rw [recommendedHouseIds, (generateRecommendations_recs env pid rd db).1,
    filter_map_new_entries]
  rfl

theorem randomSample_recommendedHouseIds (σ : List House → List House)
    (g : Nat → String) (pid : String) (db : DB) :
    recommendedHouseIds (randomSample σ g pid db).1 pid =
      recommendedHouseIds db pid ++ (randomSample σ g pid db).2.map House.id := by
  rw [recommendedHouseIds, (randomSample_state σ g pid db).2.2,
    filter_map_new_entries]
  rfl

/-! ## Degenerate stage behaviour -/

theorem vectorStage_none (db : DB) (pid : String) (ex : List String) :
    vectorStage db pid none ex = [] := by
  rw [vectorStage.eq_def]
  split <;> rfl

theorem gptStage_none (o : Bool) (avail s : List House) :
    gptStage o none avail s = s := by
  simp [gptStage]

theorem randomStage_nil (σ : List House → List House) (avail : List House)
    (hperm : ∀ l, List.Perm (σ l) l) :
    randomStage σ avail [] = (σ avail).take (min 10 avail.length) := by
  have h1 : avail.filter (fun h => !(([] : List String).contains h.id)) = avail :=
    List.filter_eq_self.mpr (fun h _ => rfl)
  simp only [randomStage, List.length_nil, List.map_nil, List.nil_append,
    Nat.sub_zero, h1, (hperm avail).length_eq]
  rw [if_pos (by omega)]

/-! ## Claim C1 -/

/-- C1: counterexample.  With the similarity oracle replying the same id
twice (oracle untrusted, response `["a","a"]`), a single
`generateRecommendations` call selects house "a" twice: the returned
list is not pairwise distinct and house "a" ends up with two
recommendation entries for project "p". -/
theorem C1_counterexample :
    ¬ (((generateRecommendations dupEnv "p" 1 exDb).2.map House.id).Nodup) ∧
    ((generateRecommendations dupEnv "p" 1 exDb).1.recommendations.filter
      (fun e => e.houseId == "a")).length = 2 := by
  constructor
  · decide
  · decide

/-- C1 (amended): every selected item is unplaced at the moment of the
call and the GPT and random stages never duplicate; but the vector stage
does not deduplicate ids inside a single oracle response, so pairwise
distinctness of one call's selections — and preservation of the
at-most-one-entry-per-item invariant — holds under the additional
hypothesis that the similarity oracle's reply is duplicate-free. -/
theorem C1_amended_no_duplicate_placement (env : OracleEnv) (pid : String)
    (rd : Nat) (db : DB) (hperm : ∀ l, List.Perm (env.shuffle l) l)
    (hnd : (db.houses.map House.id).Nodup)
    (hvr : ∀ ids, env.vectorResponse = some ids → ids.Nodup)
    (hold : (recommendedHouseIds db pid).Nodup) :
    (∀ h ∈ (generateRecommendations env pid rd db).2, h ∈ availableHouses db pid) ∧
    (((generateRecommendations env pid rd db).2.map House.id).Nodup) ∧
    ((recommendedHouseIds (generateRecommendations env pid rd db).1 pid).Nodup) := by
  obtain ⟨_, _, hmem, hnodup⟩ := generate_spec env pid rd db hperm hnd
  refine ⟨hmem, hnodup hvr, ?_⟩
  rw [generate_recommendedHouseIds, List.nodup_append]
  refine ⟨hold, hnodup hvr, ?_⟩
  intro a ha hb
  simp only [List.mem_map] at hb
  obtain ⟨h, hh, rfl⟩ := hb
  exact (mem_availableHouses.mp (hmem h hh)).2.2 ha

/-- C1 witness: the amended theorem applied to the concrete database. -/
theorem C1_witness :
    (((generateRecommendations okEnv "p" 1 exDb).2.map House.id).Nodup) ∧
    ((recommendedHouseIds (generateRecommendations okEnv "p" 1 exDb).1 "p").Nodup) := by
  have h := C1_amended_no_duplicate_placement okEnv "p" 1 exDb
    (fun l => List.Perm.refl l) (by decide)
    (fun ids hh => by cases hh; decide) (by decide)
  exact ⟨h.2.1, h.2.2⟩

/-! ## Claim C2 -/

/-- C2: `generateRecommendations` returns at most 10 items, and at least
`min 10 |unplaced|` items — so fewer than 10 only when fewer than 10
items are unplaced at call time. -/
theorem C2_selection_size_bounds (env : OracleEnv) (pid : String) (rd : Nat)
    (db : DB) (hperm : ∀ l, List.Perm (env.shuffle l) l)
    (hnd : (db.houses.map House.id).Nodup) :
    (generateRecommendations env pid rd db).2.length ≤ 10 ∧
    min 10 (availableHouses db pid).length ≤
      (generateRecommendations env pid rd db).2.length := by
  obtain ⟨h1, h2, _, _⟩ := generate_spec env pid rd db hperm hnd
  exact ⟨h1, h2⟩

/-- C2 witness: the size bounds at the concrete database. -/
theorem C2_witness :
    (generateRecommendations dupEnv "p" 1 exDb).2.length ≤ 10 ∧
    min 10 (availableHouses exDb "p").length ≤
      (generateRecommendations dupEnv "p" 1 exDb).2.length :=
  C2_selection_size_bounds dupEnv "p" 1 exDb (fun l => List.Perm.refl l) (by decide)

/-! ## Claim C5 -/

/-- C5: when the similarity oracle and the language oracle both fail,
`generateRecommendations` still returns normally with exactly
`min 10 |unplaced|` items — precisely the random-fill selection — all
drawn from the unplaced pool with no duplicates. -/
theorem C5_oracle_down_random_fill (env : OracleEnv) (pid : String) (rd : Nat)
    (db : DB) (hvec : env.vectorResponse = none) (hgpt : env.gptResponse = none)
    (hperm : ∀ l, List.Perm (env.shuffle l) l)
    (hnd : (db.houses.map House.id).Nodup) :
    (generateRecommendations env pid rd db).2 =
      (env.shuffle (availableHouses db pid)).take
        (min 10 (availableHouses db pid).length) ∧
    (generateRecommendations env pid rd db).2.length =
      min 10 (availableHouses db pid).length ∧
    (∀ h ∈ (generateRecommendations env pid rd db).2, h ∈ availableHouses db pid) ∧
    (((generateRecommendations env pid rd db).2.map House.id).Nodup) := by
  obtain ⟨h1, h2, h3, h4⟩ := generate_spec env pid rd db hperm hnd
  have hnodup := h4 (fun ids hh => by rw [hvec] at hh; cases hh)
  have hsub : (generateRecommendations env pid rd db).2.map House.id ⊆
      (availableHouses db pid).map House.id := by
    intro a ha
    simp only [List.mem_map] at ha ⊢
    obtain ⟨h, hh, rfl⟩ := ha
    exact ⟨h, h3 h hh, rfl⟩
  have hlen : (generateRecommendations env pid rd db).2.length ≤
      (availableHouses db pid).length := by
    have := (List.subperm_of_subset hnodup hsub).length_le
    simpa using this
  refine ⟨?_, by omega, h3, hnodup⟩
  rw [generateRecommendations_def]
  by_cases hz : ((availableHouses db pid).length == 0) = true
  · rw [if_pos hz]
    have hz' : (availableHouses db pid).length = 0 := by simpa using hz
    simp [hz']
  · rw [if_neg hz, hvec, vectorStage_none, hgpt, gptStage_none]
    exact randomStage_nil env.shuffle (availableHouses db pid) hperm

/-- C5 witness: with both oracles down on the concrete database the call
degrades to the random fill. -/
theorem C5_witness :
    (generateRecommendations downEnv "p" 1 exDb).2 =
      (downEnv.shuffle (availableHouses exDb "p")).take
        (min 10 (availableHouses exDb "p").length) ∧
    (generateRecommendations downEnv "p" 1 exDb).2.length =
      min 10 (availableHouses exDb "p").length ∧
    (∀ h ∈ (generateRecommendations downEnv "p" 1 exDb).2,
      h ∈ availableHouses exDb "p") ∧
    (((generateRecommendations downEnv "p" 1 exDb).2.map House.id).Nodup) :=
  C5_oracle_down_random_fill downEnv "p" 1 exDb rfl rfl
    (fun l => List.Perm.refl l) (by decide)

/-! ## Claim C9 -/

/-- C9: with an empty unplaced pool both selection operations return the
empty list, create no recommendation entries, and raise no error. -/
theorem C9_empty_pool_no_error (σ : List House → List House) (g : Nat → String)
    (env : OracleEnv) (pid : String) (rd : Nat) (db : DB)
    (hempty : availableHouses db pid = []) :
    randomSample σ g pid db = (db, []) ∧
    generateRecommendations env pid rd db = (db, []) := by
  constructor
  · rw [randomSample, hempty]
    simp
  · rw [generateRecommendations, hempty]
    simp

/-- C9 witness: the empty-pool behaviour at a concrete empty project. -/
theorem C9_witness :
    randomSample idShuffle (fun i => toString i) "p" emptyDb = (emptyDb, []) ∧
    generateRecommendations downEnv "p" 0 emptyDb = (emptyDb, []) :=
  C9_empty_pool_no_error idShuffle (fun i => toString i) downEnv "p" 0 emptyDb rfl

/-! ## Claim C3 -/

/-- C3: counterexample.  The rate handler sets `current_round` to the
client-submitted `round + 1` unconditionally (index.js:533): submitting
round 0 against project "p" whose `current_round` is 3 *decreases* it
from 3 to 1, refuting strict monotonic increase. -/
theorem C3_counterexample :
    c3Db.projects.map Project.currentRound = [3] ∧
    ((rate "p" 0 [{ houseId := "x", rating := "good", notes := "" }]
        c3Db).projects.map Project.currentRound = [1]) ∧ (1 : Nat) < 3 :=
  ⟨rfl, rfl, by omega⟩

/-- C3 (amended): the rating submission sets the project's
`current_round` to `submittedRound + 1` unconditionally — an advance of
exactly one past the *submitted* round, with projects of other ids
untouched.  Monotonicity over the project lifetime is not enforced:
nothing compares the submitted round against the stored value, so
re-submitting an earlier round leaves `current_round` unchanged or
decreases it. -/
theorem C3_amended_rate_sets_round (pid : String) (rd : Nat)
    (ratings : List RatingInput) (db : DB) :
    (∀ p ∈ (rate pid rd ratings db).projects, p.id = pid →
      p.currentRound = rd + 1) ∧
    (∀ p ∈ (rate pid rd ratings db).projects, p.id ≠ pid → p ∈ db.projects) :=
  ⟨rate_currentRound, rate_other_projects⟩

/-- C3 witness: the amended behaviour at the concrete database. -/
theorem C3_amended_witness :
    ({ id := "p", name := "P", userRequirements := none, userProfile := none,
       currentRound := 1 } : Project).currentRound = 0 + 1 := by
  have h := (C3_amended_rate_sets_round "p" 0 [] c3Db).1
  refine h _ ?_ rfl
  decide

/-! ## Claim C4 -/

/-- C4: if the client's local rating state leaves any entry of the
submitted round unset, `submitRatingsAndNextRound` rejects the
submission (the `IncompleteRatingError`-class alert, modelled as result
`none`) and performs no mutation — no request reaches the server.
`hcover` states that the client displays every entry of the round, as
`fetchRoundData` guarantees. -/
theorem C4_incomplete_rating_no_mutation (env : OracleEnv) (pr : Option String)
    (pid : String) (tab : Nat) (roundHouses : List House)
    (ratingOf : String → Option String) (notesOf : String → String) (db : DB)
    (hcover : ∀ e ∈ db.recommendations, e.projectId = pid → e.round = tab →
      ∃ h ∈ roundHouses, h.id = e.houseId)
    (hunset : ∃ e ∈ db.recommendations, e.projectId = pid ∧ e.round = tab ∧
      ratingOf e.houseId = none) :
    submitRatingsAndNextRound env pr pid tab roundHouses ratingOf notesOf db =
      (db, none) := by
  obtain ⟨e, he, hpid, hrd, hnone⟩ := hunset
  obtain ⟨h, hh, hid⟩ := hcover e he hpid hrd
  rw [submitRatingsAndNextRound, if_neg]
  intro hall
  have hsome := List.all_eq_true.mp hall h hh
  rw [hid, hnone] at hsome
  simp at hsome

/-- C4 witness: a concrete rejected submission against an unrated
round-0 entry. -/
theorem C4_witness :
    submitRatingsAndNextRound downEnv none "p" 0 [hA] (fun _ => none)
      (fun _ => "") c4Db = (c4Db, none) := by
  apply C4_incomplete_rating_no_mutation
  · intro e he _ _
    refine ⟨hA, List.mem_cons_self _ _, ?_⟩
    have he' : e = c4Rec := by
      simpa [c4Db] using he
    rw [he']
    rfl
  · exact ⟨c4Rec, List.mem_cons_self _ _, rfl, rfl, rfl⟩

/-! ## Claim C6 -/

/-- C6: the three strategies run in strict order with early stop: the
vector stage is attempted only when some prior entry is rated, the GPT
stage is a no-op when the quota of 10 is already filled or no LLM client
is configured, the random stage is a no-op when the quota is filled and
otherwise only appends to the earlier picks, and
`generateRecommendations` is exactly their composition. -/
theorem C6_strategy_order (env : OracleEnv) (pid : String) (rd : Nat) (db : DB) :
    ((ratedRecommendations db pid).length = 0 →
      vectorStage db pid env.vectorResponse (recommendedHouseIds db pid) = []) ∧
    (∀ s, 10 ≤ s.length →
      gptStage env.openaiConfigured env.gptResponse (availableHouses db pid) s
        = s) ∧
    (env.openaiConfigured = false → ∀ s,
      gptStage env.openaiConfigured env.gptResponse (availableHouses db pid) s
        = s) ∧
    (∀ s, 10 ≤ s.length →
      randomStage env.shuffle (availableHouses db pid) s = s) ∧
    (∀ s, ∃ t, randomStage env.shuffle (availableHouses db pid) s = s ++ t) ∧
    ((generateRecommendations env pid rd db).2 =
      if (availableHouses db pid).length == 0 then []
      else randomStage env.shuffle (availableHouses db pid)
        (gptStage env.openaiConfigured env.gptResponse (availableHouses db pid)
          (vectorStage db pid env.vectorResponse
            (recommendedHouseIds db pid)))) := by
  refine ⟨?_, ?_, ?_, ?_, ?_, generateRecommendations_def env pid rd db⟩
  · intro hz
    rw [vectorStage.eq_def, if_neg (by omega)]
  · intro s hs
    rw [gptStage, if_neg]
    simp only [Bool.and_eq_true, decide_eq_true_eq, not_and]
    intro hlt
    omega
  · intro hfalse s
    rw [gptStage, if_neg]
    simp [hfalse]
  · intro s hs
    rw [randomStage, if_neg (by omega)]
  · intro s
    rw [randomStage]
    split
    · exact ⟨_, rfl⟩
    · exact ⟨[], by simp⟩

/-- C6 witness: the order facts at a concrete database and
environment. -/
theorem C6_witness :
    vectorStage c8Db "p" downEnv.vectorResponse (recommendedHouseIds c8Db "p")
      = [] ∧
    gptStage downEnv.openaiConfigured downEnv.gptResponse
      (availableHouses c8Db "p") tenA = tenA ∧
    randomStage downEnv.shuffle (availableHouses c8Db "p") tenA = tenA ∧
    (∃ t, randomStage downEnv.shuffle (availableHouses c8Db "p") [] = [] ++ t) := by
  have h := C6_strategy_order downEnv "p" 0 c8Db
  exact ⟨h.1 rfl, h.2.1 tenA (by decide), h.2.2.2.1 tenA (by decide),
    h.2.2.2.2.1 []⟩

/-! ## Claim C7 -/

/-- C7: over every client-driven execution, no recommendation entry with
round number 4 or greater is ever created: round 3 is terminal.  The
client requests a next-round selection only when `currentTab < 3`, the
rate request has just set `current_round = currentTab + 1 ≤ 3`, and the
selection then runs at that round; after the round-3 submission no
candidate selection happens at all. -/
theorem C7_no_round_past_three (db : DB) (hreach : ClientReach db) :
    ∀ e ∈ db.recommendations, e.round ≤ 3 := by
  induction hreach with
  | init ps hs => intro e he; simp at he
  | upload hs hprev ih => intro e he; exact ih e he
  | sample σ g pid hprev ih =>
    intro e he
    rw [(randomSample_state σ g pid _).2.2] at he
    rcases List.mem_append.mp he with hc | hc
    · exact ih e hc
    · obtain ⟨p, hp, heq⟩ := List.mem_map.mp hc
      rw [← heq]
      exact Nat.zero_le 3
  | submit env pr pid tab rh ro no hprev ih =>
    intro e he
    by_cases hall : (rh.all fun h => (ro h.id).isSome) = true
    · by_cases htab : tab < 3
      · rw [submitRatingsAndNextRound, if_pos hall, if_pos htab] at he
        rcases nextRound_recs env pr pid _ e he with hc | ⟨p, hp, hpid, hrd⟩
        · obtain ⟨e0, he0, hr⟩ := rate_round_preserved e hc
          rw [hr]; exact ih e0 he0
        · have hcr := rate_currentRound p hp hpid
          rw [hrd, hcr]
          omega
      · rw [submitRatingsAndNextRound, if_pos hall, if_neg htab] at he
        obtain ⟨e0, he0, hr⟩ := rate_round_preserved e he
        rw [hr]; exact ih e0 he0
    · rw [submitRatingsAndNextRound, if_neg hall] at he
      exact ih e he

/-- C7 witness: the bound at a concrete reachable database with a
non-empty ledger. -/
theorem C7_witness :
    ((randomSample idShuffle (fun i => toString i) "p"
        { projects := [p0Proj], houses := [hA],
          recommendations := [] }).1).recommendations.all
      (fun e => decide (e.round ≤ 3)) = true := by
  have h := C7_no_round_past_three _
    (ClientReach.sample idShuffle (fun i => toString i) "p"
      (ClientReach.init [p0Proj] [hA]))
  exact List.all_eq_true.mpr (fun e he => decide_eq_true (h e he))

/-! ## Claim C8 -/

/-- C8: counterexample.  Submitting a rating whose (projectId, itemId,
round) triple matches no entry does not fail: the UPDATE matches zero
rows, the handler reports success, leaves the ledger unchanged — and
still advances `current_round`.  No `UnknownEntryError` exists in the
code. -/
theorem C8_counterexample :
    ((rate "p" 0 [{ houseId := "zzz", rating := "good", notes := "" }]
        c8Db).recommendations = c8Db.recommendations) ∧
    ((rate "p" 0 [{ houseId := "zzz", rating := "good", notes := "" }]
        c8Db).projects.map Project.currentRound = [1]) :=
  ⟨rfl, rfl⟩

/-- C8 (amended): a rating whose (projectId, itemId, round) triple has
no matching entry is silently ignored — the recommendations table is
unchanged — while the handler still reports success and sets the
project's `current_round` to `round + 1`. -/
theorem C8_amended_unknown_triple_ignored (pid : String) (rd : Nat)
    (r : RatingInput) (db : DB)
    (hno : ∀ e ∈ db.recommendations,
      ¬(e.projectId = pid ∧ e.houseId = r.houseId ∧ e.round = rd)) :
    (rate pid rd [r] db).recommendations = db.recommendations ∧
    (∀ p ∈ (rate pid rd [r] db).projects, p.id = pid →
      p.currentRound = rd + 1) := by
  constructor
  · show [r].foldl (fun acc x => applyRating pid rd x acc) db.recommendations
      = db.recommendations
    rw [List.foldl_cons, List.foldl_nil, applyRating]
    have hid : ∀ e ∈ db.recommendations,
        (if e.projectId == pid && e.houseId == r.houseId && e.round == rd then
          { e with rating := some r.rating, notes := some r.notes } else e) = e := by
      intro e he
      rw [if_neg]
      intro hc
      simp only [Bool.and_eq_true, beq_iff_eq] at hc
      exact hno e he ⟨hc.1.1, hc.1.2, hc.2⟩
    rw [List.map_congr_left hid]
    simp
  · exact rate_currentRound

/-- C8 witness: the amended behaviour at the concrete database. -/
theorem C8_amended_witness :
    ((rate "p" 2 [{ houseId := "y", rating := "bad", notes := "" }]
        c8Db).recommendations = c8Db.recommendations) := by
  have h := C8_amended_unknown_triple_ignored "p" 2
    { houseId := "y", rating := "bad", notes := "" } c8Db
    (fun e he => absurd he (List.not_mem_nil e))
  exact h.1

/-! ## Claim C10 -/

/-- C10: the round-0 random sample always writes round-0 entries and
never touches the projects table (in particular `current_round` is
ignored and unchanged), and the operation is not idempotent: a repeated
call draws `min 10 |still unplaced|` further items from the pool minus
the first call's placements, none repeating an item of the first
call. -/
theorem C10_random_sample_not_idempotent (σ σ2 : List House → List House)
    (g g2 : Nat → String) (pid : String) (db : DB)
    (hperm2 : ∀ l, List.Perm (σ2 l) l) :
    ((randomSample σ g pid db).1.projects = db.projects) ∧
    (∀ e ∈ (randomSample σ g pid db).1.recommendations,
      e ∈ db.recommendations ∨ e.round = 0) ∧
    ((randomSample σ2 g2 pid (randomSample σ g pid db).1).2.length =
      min 10 (availableHouses (randomSample σ g pid db).1 pid).length) ∧
    (∀ h ∈ (randomSample σ2 g2 pid (randomSample σ g pid db).1).2,
      h ∈ availableHouses db pid ∧ h ∉ (randomSample σ g pid db).2) ∧
    (∀ e ∈ (randomSample σ2 g2 pid (randomSample σ g pid db).1).1.recommendations,
      e ∈ (randomSample σ g pid db).1.recommendations ∨ e.round = 0) := by
  obtain ⟨hp1, hh1, hr1⟩ := randomSample_state σ g pid db
  refine ⟨hp1, ?_, ?_, ?_, ?_⟩
  · intro e he
    rw [hr1] at he
    rcases List.mem_append.mp he with hc | hc
    · exact Or.inl hc
    · obtain ⟨p, hp, heq⟩ := List.mem_map.mp hc
      right
      rw [← heq]
  · exact (randomSample_sel σ2 g2 pid _ hperm2).1
  · intro h hh
    have hmem1 := (randomSample_sel σ2 g2 pid _ hperm2).2.1 h hh
    have hmem1' := mem_availableHouses.mp hmem1
    rw [randomSample_recommendedHouseIds σ g pid db] at hmem1'
    rw [hh1] at hmem1'
    constructor
    · apply mem_availableHouses.mpr
      refine ⟨hmem1'.1, hmem1'.2.1, ?_⟩
      intro hx
      exact hmem1'.2.2 (List.mem_append.mpr (Or.inl hx))
    · intro hx
      exact hmem1'.2.2
        (List.mem_append.mpr (Or.inr (List.mem_map.mpr ⟨h, hx, rfl⟩)))
  · intro e he
    rw [(randomSample_state σ2 g2 pid _).2.2] at he
    rcases List.mem_append.mp he with hc | hc
    · exact Or.inl hc
    · obtain ⟨p, hp, heq⟩ := List.mem_map.mp hc
      right
      rw [← heq]

/-- C10 witness: two consecutive random samples on the concrete
database. -/
theorem C10_witness :
    ((randomSample idShuffle (fun i => toString i) "p" exDb).1.projects
      = exDb.projects) ∧
    ((randomSample idShuffle (fun i => toString i) "p"
        (randomSample idShuffle (fun i => toString i) "p" exDb).1).2.length =
      min 10 (availableHouses
        (randomSample idShuffle (fun i => toString i) "p" exDb).1 "p").length) := by
  have h := C10_random_sample_not_idempotent idShuffle idShuffle
    (fun i => toString i) (fun i => toString i) "p" exDb
    (fun l => List.Perm.refl l)
  exact ⟨h.1, h.2.2.1⟩

end Fango
